import Mathlib

/-!
# Verification of the NFT metadata generator pipeline

A shallow embedding of the deterministic NFT metadata generator
(`generator.ts`, `station-distribution.ts`) of this repository:
the seeded LCG stream, the Fisher–Yates shuffle, the station/archetype
allocation planner, blueprint building, trait drawing with scoring,
tier resolution, inscription-tag generation, and the end-to-end record
pipeline.

Modelling conventions:
* JavaScript numbers are modelled as `ℤ` where the program only ever
  stores integers (ids, counts, scores, tier bounds, timestamps) and as
  `ℚ` where fractional values occur (ratios, PRNG draws).
  `Math.round` is `jsRound` (round half towards +∞), `Math.floor` is
  `Int.floor`.
* The stateful RNG closure produced by `createRng` is embedded as an
  explicit state (`rngStep` iterated from the seeded accumulator);
  components that consume an arbitrary `rng: () => number` are
  parameterised by a draw stream `f : ℕ → ℚ` together with a cursor
  `c : ℕ`, the `k`-th call of the closure returning `f k`.
* Fallible code (`throw new Error`, out-of-bounds indexing yielding
  `undefined`) is embedded with `Option`.
-/

/-- JavaScript `Math.floor` on a rational, via the executable `Rat.floor`. -/
def jsFloor (q : ℚ) : ℤ := q.floor

/-- Lemma: `jsFloor` agrees with the mathematical floor `⌊·⌋`. -/
theorem jsFloor_eq_intFloor (q : ℚ) : jsFloor q = ⌊q⌋ := by
  rw [jsFloor, Rat.floor_def', Rat.floor_def]

/-- JavaScript `Math.round`: rounds half-way cases towards `+∞`. -/
def jsRound (q : ℚ) : ℤ := jsFloor (q + 1/2)

/-- JavaScript array indexing `l[i]` with a possibly negative index
`i : ℤ`; `none` models `undefined`. -/
def listGetInt (l : List α) (i : ℤ) : Option α :=
  if 0 ≤ i then l[i.toNat]? else none

-- ============================================================================
-- PRNG (generator.ts, `createRng`)
-- ============================================================================

/-- One step of the linear congruential generator:
`s = (s * 1664525 + 1013904223) % 4294967296` (generator.ts line 43). -/
def rngStep (s : ℕ) : ℕ := (s * 1664525 + 1013904223) % 4294967296

/-- The initial accumulator of `createRng`:
`seed.split("").reduce((acc, ch) => acc + ch.charCodeAt(0), 0) || 1`;
character codes are modelled by `Char.toNat` (identical to
`charCodeAt` for all characters of the Basic Multilingual Plane). -/
def createRngSeed (seed : String) : ℕ :=
  let t := (seed.data.map Char.toNat).sum
  if t = 0 then 1 else t

/-- Internal LCG state after the `(k+1)`-st advance, i.e. the state
backing the `k`-th value returned by the closure of `createRng seed`
(the closure advances the state before emitting). -/
def rngStateAt (seed : String) (k : ℕ) : ℕ :=
  rngStep^[k + 1] (createRngSeed seed)

/-- The draw stream produced by `createRng seed`: the `k`-th call of the
returned closure yields `s / 4294967296` for the freshly advanced state `s`. -/
def createRngStream (seed : String) (k : ℕ) : ℚ :=
  (rngStateAt seed k : ℚ) / 4294967296

-- ============================================================================
-- Fisher–Yates shuffle (generator.ts, `shuffleInPlace`)
-- ============================================================================

/-- The swap `[array[i], array[j]] = [array[j], array[i]]` on lists,
with a possibly negative second index as drawn by the shuffle;
out-of-bounds indices leave the list unchanged (the in-bounds case is
the only one exercised under the contract `draw ∈ [0, 1)`). -/
def listSwap (l : List α) (i : ℕ) (j : ℤ) : List α :=
  match l[i]?, listGetInt l j with
  | some x, some y => (l.set i y).set j.toNat x
  | _, _ => l

/-- The loop of `shuffleInPlace`: argument `i` is the current loop index
(`for (let i = array.length - 1; i > 0; i--)`), `c` the stream cursor;
each iteration draws `j = Math.floor(rng() * (i + 1))` and swaps. -/
def fyLoop (f : ℕ → ℚ) : ℕ → List α → ℕ → List α × ℕ
  | c, l, 0 => (l, c)
  | c, l, i + 1 =>
    let j := jsFloor (f c * ((i : ℚ) + 2))
    fyLoop f (c + 1) (listSwap l (i + 1) j) i

/-- Embeds `shuffleInPlace(array, rng)` (generator.ts lines 51–56), with the
mutated array and the advanced cursor returned explicitly. -/
def shuffleInPlace (l : List α) (f : ℕ → ℚ) (c : ℕ) : List α × ℕ :=
  fyLoop f c l (l.length - 1)

-- ============================================================================
-- Data model (types.ts)
-- ============================================================================

/-- Embeds `TraitConfig` of types.ts; `category` is kept as the raw string found
in the configuration document (the type alias `TraitCategory` is a union
of 4 string literals). -/
structure TraitConfig where
  name : String
  category : String
deriving DecidableEq

/-- Embeds `LayerConfig` of types.ts. -/
structure LayerConfig where
  name : String
  key : String
  traits : List TraitConfig
deriving DecidableEq

/-- Embeds `TierThreshold` of types.ts. -/
structure TierThreshold where
  tier : ℤ
  name : String
  min : ℤ
  max : ℤ
deriving DecidableEq

/-- Embeds `HeroStation` of types.ts. -/
structure HeroStation where
  id : ℤ
  name : String
deriving DecidableEq

/-- Embeds `ScoringConfig` of types.ts; the `Record<TraitCategory, number>`
`categories` table is embedded as an association list so that presence
of a key (`cat in config.scoring.categories`) is expressible. -/
structure ScoringConfig where
  categories : List (String × ℤ)
  tier_thresholds : List TierThreshold
deriving DecidableEq

/-- Embeds `HeroJourneyConfig` of types.ts. -/
structure HeroJourneyConfig where
  stations : List HeroStation
deriving DecidableEq

/-- Embeds `MetaGenConfig` of types.ts, restricted to the fields the generator
pipeline reads (`collection` and `canvas` only feed display metadata and
image compositing). -/
structure MetaGenConfig where
  scoring : ScoringConfig
  hero_journey : HeroJourneyConfig
  layers : List LayerConfig
deriving DecidableEq

/-- Embeds `GeneratedTrait` of types.ts. -/
structure GeneratedTrait where
  layerKey : String
  traitType : String
  value : String
  category : String
  score : ℤ
deriving DecidableEq

/-- Embeds `NftBlueprint` of types.ts; `archetype` is the raw string of the
`Archetype` union. -/
structure NftBlueprint where
  id : ℤ
  station : HeroStation
  archetype : String
deriving DecidableEq

/-- Embeds `GeneratedNft` of types.ts. -/
structure GeneratedNft where
  id : ℤ
  station : HeroStation
  archetype : String
  traits : List GeneratedTrait
  totalScore : ℤ
  tier : TierThreshold
  inscriptionTag : String
  mintTimestamp : ℤ
deriving DecidableEq

-- ============================================================================
-- Station distribution (station-distribution.ts)
-- ============================================================================

/-- Embeds `StationAllocation` of station-distribution.ts. -/
structure StationAllocation where
  stationId : ℤ
  count : ℤ
  bullRatio : ℚ
  bearRatio : ℚ
  hybridCount : Option ℤ := none
deriving DecidableEq

/-- Embeds `STATION_DISTRIBUTION` of station-distribution.ts (lines 28–46). -/
def STATION_DISTRIBUTION : List StationAllocation :=
  [ { stationId := 1,  count := 28, bullRatio := 0.5,  bearRatio := 0.5 },
    { stationId := 2,  count := 28, bullRatio := 0.5,  bearRatio := 0.5 },
    { stationId := 3,  count := 28, bullRatio := 0.5,  bearRatio := 0.5 },
    { stationId := 4,  count := 28, bullRatio := 0.5,  bearRatio := 0.5 },
    { stationId := 5,  count := 28, bullRatio := 0.5,  bearRatio := 0.5 },
    { stationId := 6,  count := 28, bullRatio := 0.5,  bearRatio := 0.5 },
    { stationId := 7,  count := 28, bullRatio := 0.5,  bearRatio := 0.5 },
    { stationId := 8,  count := 29, bullRatio := 0.48, bearRatio := 0.48,
      hybridCount := some 1 },
    { stationId := 9,  count := 27, bullRatio := 0.5,  bearRatio := 0.5 },
    { stationId := 10, count := 27, bullRatio := 0.5,  bearRatio := 0.5 },
    { stationId := 11, count := 27, bullRatio := 0.5,  bearRatio := 0.5 },
    { stationId := 12, count := 27, bullRatio := 0.5,  bearRatio := 0.5 } ]

/-- Result record of `getArchetypeCounts`. -/
structure ArchetypeCounts where
  bulls : ℤ
  bears : ℤ
  hybrids : ℤ
deriving DecidableEq

/-- Embeds `getArchetypeCounts` (station-distribution.ts lines 96–107).
`alloc.hybridCount || 0` is `Option.getD _ 0` (a stored `0` is also
falsy in JavaScript and likewise yields `0`). -/
def getArchetypeCounts (alloc : StationAllocation) : ArchetypeCounts :=
  let hybrids := alloc.hybridCount.getD 0
  let remaining := alloc.count - hybrids
  let bulls := jsRound ((remaining : ℚ) * alloc.bullRatio)
  let bears := remaining - bulls
  { bulls := bulls, bears := bears, hybrids := hybrids }

/-- Embeds `validateStationDistribution` (station-distribution.ts lines 51–91),
with the error-message list abstracted to its emptiness: the function
returns `valid := errors.length === 0` and the running total.  Each
numbered conjunct mirrors one `errors.push` site. -/
def validateStationDistribution : Bool × ℤ :=
  let total := (STATION_DISTRIBUTION.map (·.count)).sum
  let ratioOk := STATION_DISTRIBUTION.all fun alloc =>
    let hybridCount := alloc.hybridCount.getD 0
    let expectedRatio := ((alloc.count - hybridCount : ℤ) : ℚ) / (alloc.count : ℚ)
    let actualRatio := alloc.bullRatio + alloc.bearRatio
    decide (|actualRatio - expectedRatio| ≤ 1/100)
  let idsOk := STATION_DISTRIBUTION.all fun alloc =>
    decide (1 ≤ alloc.stationId ∧ alloc.stationId ≤ 12)
  let noDup := decide ((STATION_DISTRIBUTION.map (·.stationId)).Nodup)
  (ratioOk && idsOk && decide (total = 333) && noDup, total)

-- ============================================================================
-- Config loading checks (generator.ts, `loadConfig`)
-- ============================================================================

/-- The four entries of `requiredCategories` in `loadConfig`. -/
def requiredCategories : List String :=
  ["CHAOS", "THRESHOLD", "ORDEAL_REWARD", "MYTHIC"]

/-- The validation logic of `loadConfig` (generator.ts lines 65–101),
applied to an already-parsed configuration (file reading and JSON
parsing are external collaborators).  Each branch mirrors one `throw`
site, in source order; `none` models the thrown error.  The falsy check
`!config.layers` can only fire for `undefined`/`null`, which the typed
embedding excludes, so only the length comparisons remain. -/
def loadConfig (config : MetaGenConfig) : Option MetaGenConfig :=
  if config.layers.length ≠ 7 then none
  else if (config.layers.find? fun layer => layer.traits.length != 9).isSome then none
  else if ¬ (requiredCategories.all fun cat =>
      (config.scoring.categories.lookup cat).isSome) then none
  else if config.scoring.tier_thresholds.length ≠ 7 then none
  else if config.hero_journey.stations.length ≠ 12 then none
  else some config

-- ============================================================================
-- Blueprint generation (generator.ts, `buildNftBlueprints`)
-- ============================================================================

/-- The blueprints pushed for one allocation inside the loop of
`buildNftBlueprints` (generator.ts lines 125–140): first the Hybrids,
then the Bulls, then the Bears, each receiving the provisional id
`id++` starting at `startId`. -/
def allocBlueprints (station : HeroStation) (alloc : StationAllocation)
    (startId : ℤ) : List NftBlueprint :=
  let c := getArchetypeCounts alloc
  ((List.range c.hybrids.toNat).map fun k =>
    { id := startId + k, station := station, archetype := "Hybrid" })
  ++ ((List.range c.bulls.toNat).map fun k =>
    { id := startId + c.hybrids.toNat + k, station := station, archetype := "Bull" })
  ++ ((List.range c.bears.toNat).map fun k =>
    { id := startId + c.hybrids.toNat + c.bulls.toNat + k, station := station,
      archetype := "Bear" })

/-- The main loop of `buildNftBlueprints` (generator.ts lines 119–141):
for each allocation look up the station by id (`throw` — `none` — when
missing) and append its blueprints; `nextId` is the running mutable `id`. -/
def expandAllocs (stations : List HeroStation) :
    List StationAllocation → ℤ → Option (List NftBlueprint)
  | [], _ => some []
  | alloc :: rest, nextId =>
    match stations.find? fun s => s.id == alloc.stationId with
    | none => none
    | some st =>
      let piece := allocBlueprints st alloc nextId
      (expandAllocs stations rest (nextId + piece.length)).map (piece ++ ·)

/-- The id re-assignment after the shuffle
(`blueprints.forEach((bp, idx) => { bp.id = idx + 1 })`,
generator.ts lines 147–149), started at `n = 1`. -/
def reassignIds : ℤ → List NftBlueprint → List NftBlueprint
  | _, [] => []
  | n, bp :: rest => { bp with id := n } :: reassignIds (n + 1) rest

/-- Embeds `buildNftBlueprints` (generator.ts lines 111–152): expand every
allocation in order, shuffle the whole sequence with the shared stream,
then overwrite ids with 1-based positions. -/
def buildNftBlueprints (config : MetaGenConfig) (dist : List StationAllocation)
    (f : ℕ → ℚ) (c : ℕ) : Option (List NftBlueprint × ℕ) :=
  match expandAllocs config.hero_journey.stations dist 1 with
  | none => none
  | some bps =>
    let sh := shuffleInPlace bps f c
    some (reassignIds 1 sh.1, sh.2)

-- ============================================================================
-- Trait selection & scoring (generator.ts lines 161–206)
-- ============================================================================

/-- Embeds `pickRandomTrait` (generator.ts lines 161–164): index
`Math.floor(rng() * layer.traits.length)`; an out-of-range index would
read `undefined`, modelled as `none`. -/
def pickRandomTrait (layer : LayerConfig) (f : ℕ → ℚ) (c : ℕ) :
    Option (TraitConfig × ℕ) :=
  let idx := jsFloor (f c * (layer.traits.length : ℚ))
  (listGetInt layer.traits idx).map fun t => (t, c + 1)

/-- The loop body of `generateTraitsForNft` over the remaining layers:
pick a trait, look its category up in the scoring table
(an absent key would make the drawn score `undefined`, modelled as
`none`), and record the generated trait. -/
def generateTraitsAux (scoring : ScoringConfig) (f : ℕ → ℚ) :
    List LayerConfig → ℕ → Option (List GeneratedTrait × ℕ)
  | [], c => some ([], c)
  | layer :: rest, c =>
    match pickRandomTrait layer f c with
    | none => none
    | some (trait, c1) =>
      match scoring.categories.lookup trait.category with
      | none => none
      | some baseScore =>
        (generateTraitsAux scoring f rest c1).map fun p =>
          ({ layerKey := layer.key, traitType := layer.name, value := trait.name,
             category := trait.category, score := baseScore } :: p.1, p.2)

/-- Embeds `generateTraitsForNft` (generator.ts lines 169–186): one draw per
configured layer, in layer order. -/
def generateTraitsForNft (config : MetaGenConfig) (f : ℕ → ℚ) (c : ℕ) :
    Option (List GeneratedTrait × ℕ) :=
  generateTraitsAux config.scoring f config.layers c

/-- Embeds `computeTotalScore` (generator.ts lines 191–193). -/
def computeTotalScore (traits : List GeneratedTrait) : ℤ :=
  traits.foldl (fun sum t => sum + t.score) 0

/-- Embeds `resolveTier` (generator.ts lines 198–206): first tier whose
inclusive `[min, max]` range contains the score; `none` models the
thrown configuration-consistency error. -/
def resolveTier (score : ℤ) (tiers : List TierThreshold) : Option TierThreshold :=
  tiers.find? fun t => decide (t.min ≤ score ∧ score ≤ t.max)

-- ============================================================================
-- Inscription tag (generator.ts lines 212–224)
-- ============================================================================

/-- Embeds `INSCRIPTION_CHARS` (generator.ts line 212). -/
def INSCRIPTION_CHARS : String := "ABCDEFGHJKLMNPQRSTUVWXYZ23456789"

/-- The loop of `generateTag`, with `n` iterations left and the
accumulated `tag`; each step draws an index into `INSCRIPTION_CHARS`. -/
def generateTagAux (f : ℕ → ℚ) : ℕ → ℕ → String → Option (String × ℕ)
  | c, 0, acc => some (acc, c)
  | c, n + 1, acc =>
    let idx := jsFloor (f c * (INSCRIPTION_CHARS.length : ℚ))
    match listGetInt INSCRIPTION_CHARS.data idx with
    | none => none
    | some ch => generateTagAux f (c + 1) n (acc.push ch)

/-- Embeds `generateTag` (generator.ts lines 217–224): 4 draws, 4 characters. -/
def generateTag (f : ℕ → ℚ) (c : ℕ) : Option (String × ℕ) :=
  generateTagAux f c 4 ""

-- ============================================================================
-- NFT generation (generator.ts, `buildGeneratedNft`) and the pipeline
-- ============================================================================

/-- Embeds `buildGeneratedNft` (generator.ts lines 233–254), with the stream
cursor made explicit.  The draw order (7 layer draws, then 4 tag draws)
and the failure points (`undefined` trait, missing category weight,
unresolvable tier, `undefined` tag character) mirror the source. -/
def buildGeneratedNft (blueprint : NftBlueprint) (config : MetaGenConfig)
    (f : ℕ → ℚ) (c : ℕ) (mintTimestamp : ℤ) : Option (GeneratedNft × ℕ) :=
  match generateTraitsForNft config f c with
  | none => none
  | some (traits, c1) =>
    match resolveTier (computeTotalScore traits) config.scoring.tier_thresholds with
    | none => none
    | some tier =>
      match generateTag f c1 with
      | none => none
      | some (inscriptionTag, c2) =>
        some ({ id := blueprint.id, station := blueprint.station,
                archetype := blueprint.archetype, traits := traits,
                totalScore := computeTotalScore traits, tier := tier,
                inscriptionTag := inscriptionTag,
                mintTimestamp := mintTimestamp }, c2)

/-- The per-blueprint loop of `generateCollection`
(generator.ts lines 396–408), restricted to record generation (file
writes and logging are external collaborators). -/
def generateAllNfts (config : MetaGenConfig) (f : ℕ → ℚ) (mintTimestamp : ℤ) :
    List NftBlueprint → ℕ → Option (List GeneratedNft × ℕ)
  | [], c => some ([], c)
  | bp :: rest, c =>
    match buildGeneratedNft bp config f c mintTimestamp with
    | none => none
    | some (nft, c1) =>
      (generateAllNfts config f mintTimestamp rest c1).map fun p =>
        (nft :: p.1, p.2)

/-- The deterministic core of `generateCollection`
(generator.ts lines 355–411): validate the station distribution, create
the PRNG from the seed, build the blueprints over `STATION_DISTRIBUTION`
(checking the 333 count), then generate one record per blueprint with
one shared stream.  Config loading, file I/O and logging are external. -/
def generateCollectionCore (config : MetaGenConfig) (seed : String)
    (mintTimestamp : ℤ) : Option (List NftBlueprint × List GeneratedNft) :=
  if (validateStationDistribution).1 = false then none
  else
    let f := createRngStream seed
    match buildNftBlueprints config STATION_DISTRIBUTION f 0 with
    | none => none
    | some (blueprints, c) =>
      if blueprints.length ≠ 333 then none
      else
        (generateAllNfts config f mintTimestamp blueprints c).map fun p =>
          (blueprints, p.1)

-- ============================================================================
-- Basic lemmas about the PRNG stream
-- ============================================================================

/-- Every LCG step lands strictly below the modulus. -/
theorem rngStep_lt (s : ℕ) : rngStep s < 4294967296 :=
  Nat.mod_lt _ (by norm_num)

/-- The state backing any draw is a value of `rngStep`, hence below the
modulus. -/
theorem rngStateAt_lt (seed : String) (k : ℕ) :
    rngStateAt seed k < 4294967296 := by
  rw [rngStateAt, Function.iterate_succ_apply']
  exact rngStep_lt _

/-- The seeded stream only emits values in `[0, 1)`. -/
theorem createRngStream_mem_Ico (seed : String) (k : ℕ) :
    0 ≤ createRngStream seed k ∧ createRngStream seed k < 1 := by
  rw [createRngStream]
  constructor
  · positivity
  · rw [div_lt_one (by norm_num)]
    exact_mod_cast rngStateAt_lt seed k

/-- C2.  PRNG reference definition: the generator created by
`createRng seed` starts from the accumulator equal to the sum of the
seed's character codes (1 substituted when that sum is zero), its `k`-th
draw is `s_k / 2^32` where `s_k` is obtained by `k+1` applications of
the recurrence `s' = (s * 1664525 + 1013904223) mod 2^32` to that
accumulator, and every emitted value lies in `[0, 1)`. -/
theorem c2_prng_reference (seed : String) (k : ℕ) :
    createRngStream seed k
      = ((rngStep^[k + 1] (createRngSeed seed) : ℕ) : ℚ) / 4294967296
    ∧ createRngSeed seed
      = (if (seed.data.map Char.toNat).sum = 0 then 1
         else (seed.data.map Char.toNat).sum)
    ∧ (∀ s : ℕ, rngStep s = (s * 1664525 + 1013904223) % 4294967296)
    ∧ 0 ≤ createRngStream seed k ∧ createRngStream seed k < 1 :=
  ⟨rfl, rfl, fun _ => rfl, createRngStream_mem_Ico seed k⟩

-- ============================================================================
-- C3: allocation exactness
-- ============================================================================

/-- C3.  Allocation exactness: for every allocation, `hybrids` is the
declared override (0 when absent), `bulls` is `round(remaining × bullRatio)`,
`bears` the exact remainder — so the three always sum to `count` — and the
shipped `STATION_DISTRIBUTION` counts sum to 333. -/
theorem c3_allocation_exactness :
    (∀ alloc : StationAllocation,
      (getArchetypeCounts alloc).hybrids = alloc.hybridCount.getD 0
      ∧ (getArchetypeCounts alloc).bulls
          = jsRound (((alloc.count - alloc.hybridCount.getD 0 : ℤ) : ℚ)
              * alloc.bullRatio)
      ∧ (getArchetypeCounts alloc).bears
          = (alloc.count - alloc.hybridCount.getD 0)
            - (getArchetypeCounts alloc).bulls
      ∧ (getArchetypeCounts alloc).bulls + (getArchetypeCounts alloc).bears
          + (getArchetypeCounts alloc).hybrids = alloc.count)
    ∧ (STATION_DISTRIBUTION.map (·.count)).sum = 333 := by
  constructor
  · intro alloc
    refine ⟨rfl, rfl, rfl, ?_⟩
    simp only [getArchetypeCounts]
    ring
  · decide

-- ============================================================================
-- C6: shuffle draw count
-- ============================================================================

/-- The shuffle loop advances the cursor once per iteration. -/
theorem fyLoop_snd (f : ℕ → ℚ) :
    ∀ (i c : ℕ) (l : List α), (fyLoop f c l i).2 = c + i := by
  intro i
  induction i with
  | zero => intro c l; rfl
  | succ n ih =>
    intro c l
    rw [fyLoop, ih]
    omega

/-- C6.  Shuffle draw count: on a sequence of length `N ≥ 2` the shuffle
consumes exactly `N - 1` draws, and on a sequence of length `≤ 1` it
consumes none. -/
theorem c6_shuffle_draw_count (l : List α) (f : ℕ → ℚ) (c : ℕ) :
    (2 ≤ l.length → (shuffleInPlace l f c).2 = c + (l.length - 1))
    ∧ (l.length ≤ 1 → (shuffleInPlace l f c).2 = c) := by
  constructor
  · intro _
    rw [shuffleInPlace, fyLoop_snd]
  · intro h
    rw [shuffleInPlace, fyLoop_snd]
    omega

/-- Witness for C6 at concrete inputs: a 3-element list consumes 2
draws, a 1-element list none. -/
theorem c6_shuffle_draw_count_witness :
    (shuffleInPlace ([10, 20, 30] : List ℤ) (fun _ => 0) 5).2 = 7
    ∧ (shuffleInPlace ([10] : List ℤ) (fun _ => 0) 5).2 = 5 := by
  constructor
  · have h := (c6_shuffle_draw_count ([10, 20, 30] : List ℤ) (fun _ => 0) 5).1
      (by decide)
    simpa using h
  · exact (c6_shuffle_draw_count ([10] : List ℤ) (fun _ => 0) 5).2 (by decide)

-- ============================================================================
-- Index-in-bounds lemma shared by trait picking and tag generation
-- ============================================================================

/-- For a draw `q ∈ [0, 1)` and a non-empty list, the JavaScript index
`Math.floor(q * length)` hits an actual element. -/
theorem listGetInt_jsFloor_mul {q : ℚ} (h0 : 0 ≤ q) (h1 : q < 1)
    (l : List α) (hl : l ≠ []) :
    ∃ a, listGetInt l (jsFloor (q * (l.length : ℚ))) = some a ∧ a ∈ l := by
  have hn : 0 < l.length := List.length_pos.mpr hl
  have hnq : (0 : ℚ) < (l.length : ℚ) := by exact_mod_cast hn
  have hfl : (0 : ℤ) ≤ jsFloor (q * (l.length : ℚ)) := by
    rw [jsFloor_eq_intFloor]
    exact Int.floor_nonneg.mpr (mul_nonneg h0 (le_of_lt hnq))
  have hlt : jsFloor (q * (l.length : ℚ)) < (l.length : ℤ) := by
    rw [jsFloor_eq_intFloor]
    have : q * (l.length : ℚ) < (l.length : ℚ) := by
      calc q * (l.length : ℚ) < 1 * (l.length : ℚ) :=
            (mul_lt_mul_of_pos_right h1 hnq)
        _ = (l.length : ℚ) := one_mul _
    exact Int.floor_lt.mpr (by exact_mod_cast this)
  have hidx : (jsFloor (q * (l.length : ℚ))).toNat < l.length := by omega
  refine ⟨l[(jsFloor (q * (l.length : ℚ))).toNat], ?_, List.getElem_mem hidx⟩
  rw [listGetInt, if_pos hfl]
  exact List.getElem?_eq_getElem hidx

-- ============================================================================
-- C7: inscription tag shape (corrected: the alphabet has 32 symbols)
-- ============================================================================

/-- Counterexample to C7 as stated: the declared alphabet
`INSCRIPTION_CHARS` ("A–Z without I, O; digits 2–9") contains 32
characters, not 33. -/
theorem c7_alphabet_counterexample :
    INSCRIPTION_CHARS.length = 32 ∧ ¬ INSCRIPTION_CHARS.length = 33 := by
  decide

/-- The tag loop: under in-range draws it always succeeds, consumes one
draw per remaining character, and only appends alphabet characters. -/
theorem generateTagAux_spec (f : ℕ → ℚ) (hf : ∀ k, 0 ≤ f k ∧ f k < 1) :
    ∀ (n c : ℕ) (acc : String),
      ∃ tag, generateTagAux f c n acc = some (tag, c + n)
        ∧ tag.length = acc.length + n
        ∧ ∀ ch ∈ tag.data, ch ∈ acc.data ∨ ch ∈ INSCRIPTION_CHARS.data := by
  intro n
  induction n with
  | zero =>
    intro c acc
    exact ⟨acc, rfl, rfl, fun ch hch => Or.inl hch⟩
  | succ m ih =>
    intro c acc
    obtain ⟨ch, hch, hmem⟩ :=
      listGetInt_jsFloor_mul (hf c).1 (hf c).2 INSCRIPTION_CHARS.data
        (by decide)
    obtain ⟨tag, htag, hlen, hall⟩ := ih (c + 1) (acc.push ch)
    refine ⟨tag, ?_, ?_, ?_⟩
    · rw [generateTagAux]
      have heq : jsFloor (f c * ((INSCRIPTION_CHARS.length : ℕ) : ℚ))
          = jsFloor (f c * ((INSCRIPTION_CHARS.data.length : ℕ) : ℚ)) := rfl
      rw [heq, hch]
      show generateTagAux f (c + 1) m (acc.push ch) = some (tag, c + (m + 1))
      rw [htag]
      exact congrArg (fun n => some (tag, n)) (by omega : c + 1 + m = c + (m + 1))
    · rw [hlen, String.length_push]
      omega
    · intro c' hc'
      rcases hall c' hc' with h | h
      · rw [String.push, String.data] at h
        rcases List.mem_append.mp h with h' | h'
        · exact Or.inl h'
        · rcases List.mem_singleton.mp h' with rfl
          exact Or.inr hmem
      · exact Or.inr h

/-- C7 (amended).  Short-code shape: for draws in `[0, 1)`,
`generateTag` consumes exactly 4 draws and yields a 4-character string
over the declared alphabet — which has 32 symbols, not the 33 claimed. -/
theorem c7_tag_shape_amended (f : ℕ → ℚ) (c : ℕ)
    (hf : ∀ k, 0 ≤ f k ∧ f k < 1) :
    ∃ tag, generateTag f c = some (tag, c + 4) ∧ tag.length = 4
      ∧ (∀ ch ∈ tag.data, ch ∈ INSCRIPTION_CHARS.data)
      ∧ INSCRIPTION_CHARS.length = 32 := by
  obtain ⟨tag, htag, hlen, hall⟩ := generateTagAux_spec f hf 4 c ""
  refine ⟨tag, htag, by simpa using hlen, ?_, by decide⟩
  intro ch hch
  rcases hall ch hch with h | h
  · simp at h
  · exact h

/-- Witness for C7 (amended) at the constant-zero stream: the theorem
applies and its hypotheses hold at `f = fun _ => 0`, `c = 0`. -/
theorem c7_tag_shape_amended_witness :
    ∃ tag, generateTag (fun _ => 0) 0 = some (tag, 0 + 4) ∧ tag.length = 4
      ∧ (∀ ch ∈ tag.data, ch ∈ INSCRIPTION_CHARS.data)
      ∧ INSCRIPTION_CHARS.length = 32 :=
  c7_tag_shape_amended (fun _ => 0) 0 (fun _ => by norm_num)

-- ============================================================================
-- C5: tier resolution and score/tier consistency
-- ============================================================================

/-- A successful `resolveTier` returns a tier containing the score. -/
theorem resolveTier_some_contains {score : ℤ} {tiers : List TierThreshold}
    {t : TierThreshold} (h : resolveTier score tiers = some t) :
    t.min ≤ score ∧ score ≤ t.max := by
  rw [resolveTier] at h
  have hb := List.find?_some h
  simpa using hb

/-- C5.  Tier resolution: `resolveTier` returns the first tier (in list
order) whose inclusive `[min, max]` range contains the score, errors
(returns `none`) exactly when no tier contains it, and consequently
every generated record satisfies `tier.min ≤ totalScore ≤ tier.max`
with `totalScore` the sum of the per-trait weights. -/
theorem c5_tier_resolution (score : ℤ) (tiers : List TierThreshold) :
    (∀ t, resolveTier score tiers = some t →
      (t.min ≤ score ∧ score ≤ t.max)
      ∧ ∃ pre post, tiers = pre ++ t :: post
          ∧ ∀ t' ∈ pre, ¬ (t'.min ≤ score ∧ score ≤ t'.max))
    ∧ (resolveTier score tiers = none
        ↔ ∀ t ∈ tiers, ¬ (t.min ≤ score ∧ score ≤ t.max))
    ∧ (∀ (bp : NftBlueprint) (config : MetaGenConfig) (f : ℕ → ℚ) (c : ℕ)
        (ts : ℤ) (nft : GeneratedNft) (c' : ℕ),
        buildGeneratedNft bp config f c ts = some (nft, c') →
        nft.tier.min ≤ nft.totalScore ∧ nft.totalScore ≤ nft.tier.max
        ∧ nft.totalScore = computeTotalScore nft.traits) := by
  refine ⟨?_, ?_, ?_⟩
  · intro t ht
    refine ⟨resolveTier_some_contains ht, ?_⟩
    rw [resolveTier, List.find?_eq_some] at ht
    obtain ⟨hp, pre, post, rfl, hpre⟩ := ht
    refine ⟨pre, post, rfl, ?_⟩
    intro t' ht'
    have hn := hpre t' ht'
    simp at hn
    omega
  · rw [resolveTier, List.find?_eq_none]
    constructor
    · intro h t ht
      simpa using h t ht
    · intro h t ht
      simpa using h t ht
  · intro bp config f c ts nft c' h
    rw [buildGeneratedNft] at h
    split at h
    · exact absurd h (by simp)
    next traits c1 heq1 =>
      split at h
      · exact absurd h (by simp)
      next tier heq2 =>
        split at h
        · exact absurd h (by simp)
        next tag c2 heq3 =>
          cases h
          have hcontain := resolveTier_some_contains heq2
          exact ⟨hcontain.1, hcontain.2, rfl⟩

/-- Witness for C5 at a concrete input: score 5 against a single tier
`[0, 10]` resolves to that tier, which indeed heads the list with an
empty non-matching prefix. -/
theorem c5_tier_resolution_witness :
    ((⟨1, "T", 0, 10⟩ : TierThreshold).min ≤ (5 : ℤ)
      ∧ (5 : ℤ) ≤ (⟨1, "T", 0, 10⟩ : TierThreshold).max)
    ∧ ∃ pre post,
        ([⟨1, "T", 0, 10⟩] : List TierThreshold)
          = pre ++ (⟨1, "T", 0, 10⟩ : TierThreshold) :: post
        ∧ ∀ t' ∈ pre, ¬ (t'.min ≤ (5 : ℤ) ∧ (5 : ℤ) ≤ t'.max) :=
  (c5_tier_resolution 5 [⟨1, "T", 0, 10⟩]).1 ⟨1, "T", 0, 10⟩ (by decide)

-- ============================================================================
-- C8: config loading (corrected: only cardinality checks exist)
-- ============================================================================

/-- A configuration that passes every check `loadConfig` performs while
violating two invariants the specification says are checked: its four
category weights are all equal (not strictly increasing) and its tiers
do not cover the achievable score range (every achievable total is
`7 × 5 = 35`, but all tiers are `[0, 0]`). -/
def cfgFlatWeights : MetaGenConfig :=
  { scoring :=
      { categories :=
          [("CHAOS", 5), ("THRESHOLD", 5), ("ORDEAL_REWARD", 5), ("MYTHIC", 5)],
        tier_thresholds :=
          (List.range 7).map fun k => { tier := (k : ℤ) + 1, name := "T",
                                        min := 0, max := 0 } },
    hero_journey :=
      { stations := (List.range 12).map fun k => { id := (k : ℤ) + 1, name := "S" } },
    layers :=
      (List.range 7).map fun _ =>
        { name := "Layer", key := "layer",
          traits := List.replicate 9 { name := "T", category := "CHAOS" } } }

/-- Counterexample to C8 as stated: `loadConfig` accepts
`cfgFlatWeights` even though its category weights are not strictly
increasing (`CHAOS` and `MYTHIC` both weigh 5) and its seven `[0, 0]`
tiers do not contain the achievable score 35 — so loading does not fail
on those invariants. -/
theorem c8_loadConfig_counterexample :
    loadConfig cfgFlatWeights = some cfgFlatWeights
    ∧ cfgFlatWeights.scoring.categories.lookup "CHAOS" = some 5
    ∧ cfgFlatWeights.scoring.categories.lookup "MYTHIC" = some 5
    ∧ (∀ t ∈ cfgFlatWeights.scoring.tier_thresholds,
        ¬ (t.min ≤ (35 : ℤ) ∧ (35 : ℤ) ≤ t.max)) := by
  decide

/-- C8 (amended).  Config loading checks exactly the cardinality
invariants present in the source: `loadConfig` returns the parsed config
iff there are exactly 7 layers, every layer has exactly 9 traits, all 4
scoring categories are present, there are exactly 7 tier thresholds and
exactly 12 stations — and errors otherwise.  It does not validate weight
monotonicity or tier coverage (see the counterexample). -/
theorem c8_loadConfig_amended (config : MetaGenConfig) :
    (loadConfig config = some config ↔
      (config.layers.length = 7
        ∧ (∀ layer ∈ config.layers, layer.traits.length = 9)
        ∧ (∀ cat ∈ requiredCategories,
            (config.scoring.categories.lookup cat).isSome)
        ∧ config.scoring.tier_thresholds.length = 7
        ∧ config.hero_journey.stations.length = 12))
    ∧ (loadConfig config = none ↔
      ¬ (config.layers.length = 7
        ∧ (∀ layer ∈ config.layers, layer.traits.length = 9)
        ∧ (∀ cat ∈ requiredCategories,
            (config.scoring.categories.lookup cat).isSome)
        ∧ config.scoring.tier_thresholds.length = 7
        ∧ config.hero_journey.stations.length = 12)) := by
  have hsome : loadConfig config = some config ↔
      (config.layers.length = 7
        ∧ (∀ layer ∈ config.layers, layer.traits.length = 9)
        ∧ (∀ cat ∈ requiredCategories,
            (config.scoring.categories.lookup cat).isSome)
        ∧ config.scoring.tier_thresholds.length = 7
        ∧ config.hero_journey.stations.length = 12) := by
    rw [loadConfig]
    split_ifs with h1 h2 h3 h4 h5 <;>
      simp_all [List.find?_isSome, List.all_eq_true, bne_iff_ne]
  refine ⟨hsome, ?_⟩
  have hcases : loadConfig config = none ∨ loadConfig config = some config := by
    rw [loadConfig]
    split_ifs <;> simp
  rcases hcases with hn | hs
  · rw [hn]
    simp only [true_iff]
    intro hc
    have := hsome.mpr hc
    rw [hn] at this
    exact absurd this (by simp)
  · rw [hs]
    constructor
    · intro h; exact absurd h (by simp)
    · intro hc
      exact absurd (hsome.mp hs) hc

-- ============================================================================
-- C10: trait-draw safety
-- ============================================================================

/-- Under in-range draws, `pickRandomTrait` on a non-empty layer always
returns an actual trait of the layer and advances the cursor by one. -/
theorem pickRandomTrait_spec (layer : LayerConfig) (f : ℕ → ℚ) (c : ℕ)
    (h0 : 0 ≤ f c) (h1 : f c < 1) (hne : layer.traits ≠ []) :
    ∃ tr, pickRandomTrait layer f c = some (tr, c + 1) ∧ tr ∈ layer.traits := by
  obtain ⟨tr, htr, hmem⟩ := listGetInt_jsFloor_mul h0 h1 layer.traits hne
  exact ⟨tr, by rw [pickRandomTrait, htr]; rfl, hmem⟩

/-- The trait loop: under in-range draws, non-empty layers and a scoring
table covering every trait category, it yields exactly one generated
trait per layer, each recording the drawn trait's category and its
looked-up weight. -/
theorem generateTraitsAux_spec (scoring : ScoringConfig) (f : ℕ → ℚ)
    (hf : ∀ k, 0 ≤ f k ∧ f k < 1) :
    ∀ (layers : List LayerConfig) (c : ℕ),
      (∀ layer ∈ layers, layer.traits ≠ []) →
      (∀ layer ∈ layers, ∀ tr ∈ layer.traits,
        (scoring.categories.lookup tr.category).isSome) →
      ∃ ts c', generateTraitsAux scoring f layers c = some (ts, c')
        ∧ ts.length = layers.length
        ∧ ∀ gt ∈ ts, ∃ layer ∈ layers, ∃ tr ∈ layer.traits,
            gt.layerKey = layer.key ∧ gt.traitType = layer.name
            ∧ gt.value = tr.name ∧ gt.category = tr.category
            ∧ scoring.categories.lookup tr.category = some gt.score := by
  intro layers
  induction layers with
  | nil =>
    intro c _ _
    exact ⟨[], c, rfl, rfl, by simp⟩
  | cons layer rest ih =>
    intro c hne hcov
    obtain ⟨tr, hpick, hmem⟩ :=
      pickRandomTrait_spec layer f c (hf c).1 (hf c).2
        (hne layer (List.mem_cons_self _ _))
    obtain ⟨w, hw⟩ := Option.isSome_iff_exists.mp
      (hcov layer (List.mem_cons_self _ _) tr hmem)
    obtain ⟨ts, c', hgen, hlen, hall⟩ := ih (c + 1)
      (fun l hl => hne l (List.mem_cons_of_mem _ hl))
      (fun l hl => hcov l (List.mem_cons_of_mem _ hl))
    refine ⟨{ layerKey := layer.key, traitType := layer.name, value := tr.name,
              category := tr.category, score := w } :: ts, c', ?_, ?_, ?_⟩
    · rw [generateTraitsAux]
      simp only [hpick, hw, hgen, Option.map_some]
      rfl
    · simpa using hlen
    · intro gt hgt
      rcases List.mem_cons.mp hgt with rfl | hgt'
      · exact ⟨layer, List.mem_cons_self _ _, tr, hmem, rfl, rfl, rfl, rfl, hw⟩
      · obtain ⟨l, hl, tr', htr', h₁, h₂, h₃, h₄, h₅⟩ := hall gt hgt'
        exact ⟨l, List.mem_cons_of_mem _ hl, tr', htr', h₁, h₂, h₃, h₄, h₅⟩

/-- C10.  Trait-draw safety: for in-range draws the floor-scaled index
of `pickRandomTrait` is always in bounds on a non-empty layer, so a
trait of the layer is always returned; and `generateTraitsForNft`
yields exactly one generated trait per configured layer, each carrying
the drawn trait's category and the weight looked up in the scoring
table. -/
theorem c10_trait_draw_safety (config : MetaGenConfig) (f : ℕ → ℚ) (c : ℕ)
    (hf : ∀ k, 0 ≤ f k ∧ f k < 1) :
    (∀ (layer : LayerConfig) (c₀ : ℕ), layer.traits ≠ [] →
      ∃ tr, pickRandomTrait layer f c₀ = some (tr, c₀ + 1) ∧ tr ∈ layer.traits)
    ∧ ((∀ layer ∈ config.layers, layer.traits ≠ []) →
       (∀ layer ∈ config.layers, ∀ tr ∈ layer.traits,
         (config.scoring.categories.lookup tr.category).isSome) →
       ∃ ts c', generateTraitsForNft config f c = some (ts, c')
         ∧ ts.length = config.layers.length
         ∧ ∀ gt ∈ ts, ∃ layer ∈ config.layers, ∃ tr ∈ layer.traits,
             gt.layerKey = layer.key ∧ gt.traitType = layer.name
             ∧ gt.value = tr.name ∧ gt.category = tr.category
             ∧ config.scoring.categories.lookup tr.category = some gt.score) := by
  constructor
  · intro layer c₀ hne
    exact pickRandomTrait_spec layer f c₀ (hf c₀).1 (hf c₀).2 hne
  · intro hne hcov
    exact generateTraitsAux_spec config.scoring f hf config.layers c hne hcov

/-- A one-layer, one-trait configuration used to witness C10. -/
def cfgOneTrait : MetaGenConfig :=
  { scoring := { categories := [("CHAOS", 5)], tier_thresholds := [] },
    hero_journey := { stations := [] },
    layers := [{ name := "Background", key := "background",
                 traits := [{ name := "Red", category := "CHAOS" }] }] }

/-- Witness for C10 at the constant-zero stream over `cfgOneTrait`. -/
theorem c10_trait_draw_safety_witness :
    ∃ ts c', generateTraitsForNft cfgOneTrait (fun _ => 0) 0 = some (ts, c')
      ∧ ts.length = cfgOneTrait.layers.length
      ∧ ∀ gt ∈ ts, ∃ layer ∈ cfgOneTrait.layers, ∃ tr ∈ layer.traits,
          gt.layerKey = layer.key ∧ gt.traitType = layer.name
          ∧ gt.value = tr.name ∧ gt.category = tr.category
          ∧ cfgOneTrait.scoring.categories.lookup tr.category = some gt.score :=
  (c10_trait_draw_safety cfgOneTrait (fun _ => 0) 0 (fun _ => by norm_num)).2
    (by decide) (by decide)

-- ============================================================================
-- Shuffle: length and permutation invariants
-- ============================================================================

/-- Prepending the `m`-th element to the list with position `m`
overwritten is a permutation of prepending the new value. -/
theorem getElem_cons_set_perm :
    ∀ (t : List α) (m : ℕ) (hm : m < t.length) (a : α),
      List.Perm (t[m] :: t.set m a) (a :: t)
  | b :: s, 0, _, a => List.Perm.swap a b s
  | b :: s, m + 1, hm, a => by
    have hm' : m < s.length := by simpa using hm
    have ih := getElem_cons_set_perm s m hm' a
    exact (List.Perm.swap b s[m] (s.set m a)).trans
      ((ih.cons b).trans (List.Perm.swap a b s))

/-- Exchanging two positions of a list is a permutation. -/
theorem set_set_perm :
    ∀ (l : List α) (i j : ℕ) (hi : i < l.length) (hj : j < l.length),
      List.Perm ((l.set i l[j]).set j l[i]) l
  | a :: t, 0, 0, _, _ => by simp
  | a :: t, 0, m + 1, hi, hj => by
    have hm : m < t.length := by simpa using hj
    simpa using getElem_cons_set_perm t m hm a
  | a :: t, n + 1, 0, hi, hj => by
    have hn : n < t.length := by simpa using hi
    simpa using getElem_cons_set_perm t n hn a
  | a :: t, n + 1, m + 1, hi, hj => by
    have hn : n < t.length := by simpa using hi
    have hm : m < t.length := by simpa using hj
    simpa using (set_set_perm t n m hn hm).cons a

/-- A swap step of the shuffle permutes the list. -/
theorem listSwap_perm (l : List α) (i : ℕ) (j : ℤ) :
    List.Perm (listSwap l i j) l := by
  rw [listSwap]
  split
  next x y hx hy =>
    rw [listGetInt] at hy
    split at hy
    · have hil : i < l.length := (List.getElem?_eq_some_iff.mp hx).1
      have hjl : j.toNat < l.length := (List.getElem?_eq_some_iff.mp hy).1
      have hxv : l[i] = x := (List.getElem?_eq_some_iff.mp hx).2
      have hyv : l[j.toNat] = y := (List.getElem?_eq_some_iff.mp hy).2
      rw [← hxv, ← hyv]
      exact set_set_perm l i j.toNat hil hjl
    · exact absurd hy (by simp)
  next => exact List.Perm.refl l

/-- The shuffle loop permutes the list. -/
theorem fyLoop_perm (f : ℕ → ℚ) :
    ∀ (i c : ℕ) (l : List α), List.Perm (fyLoop f c l i).1 l := by
  intro i
  induction i with
  | zero => intro c l; exact List.Perm.refl l
  | succ n ih =>
    intro c l
    rw [fyLoop]
    exact (ih (c + 1) _).trans (listSwap_perm l (n + 1) _)

/-- Running the shuffle permutes the sequence. -/
theorem shuffleInPlace_perm (l : List α) (f : ℕ → ℚ) (c : ℕ) :
    List.Perm (shuffleInPlace l f c).1 l :=
  fyLoop_perm f (l.length - 1) c l

/-- The shuffle preserves length. -/
theorem shuffleInPlace_length (l : List α) (f : ℕ → ℚ) (c : ℕ) :
    (shuffleInPlace l f c).1.length = l.length :=
  (shuffleInPlace_perm l f c).length_eq

-- ============================================================================
-- Id reassignment invariants
-- ============================================================================

/-- Re-assignment preserves length. -/
theorem reassignIds_length : ∀ (n : ℤ) (l : List NftBlueprint),
    (reassignIds n l).length = l.length
  | _, [] => rfl
  | n, _ :: rest => by
    rw [reassignIds, List.length_cons, List.length_cons,
      reassignIds_length (n + 1) rest]

/-- The ids after re-assignment are consecutive from the start value. -/
theorem reassignIds_map_id : ∀ (n : ℤ) (l : List NftBlueprint),
    (reassignIds n l).map (·.id)
      = (List.range l.length).map fun k : ℕ => n + (k : ℤ)
  | _, [] => rfl
  | n, bp :: rest => by
    rw [reassignIds, List.map_cons, reassignIds_map_id (n + 1) rest,
      List.length_cons, List.range_succ_eq_map, List.map_cons, List.map_map]
    refine congrArg₂ List.cons (by simp) ?_
    refine List.map_congr_left ?_
    intro k _
    simp only [Function.comp_apply]
    push_cast
    ring

/-- Station and archetype are untouched by id re-assignment. -/
theorem reassignIds_map_pair : ∀ (n : ℤ) (l : List NftBlueprint),
    (reassignIds n l).map (fun bp => (bp.station, bp.archetype))
      = l.map fun bp => (bp.station, bp.archetype)
  | _, [] => rfl
  | n, bp :: rest => by
    rw [reassignIds, List.map_cons, List.map_cons,
      reassignIds_map_pair (n + 1) rest]

-- ============================================================================
-- Blueprint expansion invariants
-- ============================================================================

/-- Number of blueprints one allocation contributes. -/
def pieceLen (alloc : StationAllocation) : ℕ :=
  (getArchetypeCounts alloc).hybrids.toNat + (getArchetypeCounts alloc).bulls.toNat
    + (getArchetypeCounts alloc).bears.toNat

/-- One allocation contributes `pieceLen` blueprints. -/
theorem allocBlueprints_length (st : HeroStation) (alloc : StationAllocation)
    (i : ℤ) : (allocBlueprints st alloc i).length = pieceLen alloc := by
  simp [allocBlueprints, pieceLen]
  omega

/-- Expansion succeeds when every allocation's station exists, and the
result concatenates the per-allocation pieces. -/
theorem expandAllocs_exists (stations : List HeroStation) :
    ∀ (dist : List StationAllocation) (nextId : ℤ),
      (∀ a ∈ dist, ∃ s ∈ stations, s.id = a.stationId) →
      ∃ l, expandAllocs stations dist nextId = some l := by
  intro dist
  induction dist with
  | nil => exact fun nextId _ => ⟨[], rfl⟩
  | cons alloc rest ih =>
    intro nextId hcov
    obtain ⟨s, hs, hsid⟩ := hcov alloc (List.mem_cons_self _ _)
    have hfind : (stations.find? fun s => s.id == alloc.stationId).isSome :=
      List.find?_isSome.mpr ⟨s, hs, by simpa using hsid⟩
    obtain ⟨st, hst⟩ := Option.isSome_iff_exists.mp hfind
    obtain ⟨l', hl'⟩ := ih (nextId + (allocBlueprints st alloc nextId).length)
      (fun a ha => hcov a (List.mem_cons_of_mem _ ha))
    refine ⟨allocBlueprints st alloc nextId ++ l', ?_⟩
    rw [expandAllocs, hst]
    show Option.map (fun x => allocBlueprints st alloc nextId ++ x)
        (expandAllocs stations rest
          (nextId + (allocBlueprints st alloc nextId).length)) = _
    rw [hl']
    rfl

/-- The expansion's length is the sum of the piece lengths. -/
theorem expandAllocs_length (stations : List HeroStation) :
    ∀ (dist : List StationAllocation) (nextId : ℤ) (l : List NftBlueprint),
      expandAllocs stations dist nextId = some l →
      l.length = (dist.map pieceLen).sum := by
  intro dist
  induction dist with
  | nil =>
    intro nextId l h
    cases h
    rfl
  | cons alloc rest ih =>
    intro nextId l h
    rw [expandAllocs] at h
    split at h
    · exact absurd h (by simp)
    next st hst =>
      rw [Option.map_eq_some'] at h
      obtain ⟨l', hrec, rfl⟩ := h
      rw [List.length_append, allocBlueprints_length, ih _ _ hrec,
        List.map_cons, List.sum_cons]

/-- Hybrid count of one allocation's piece. -/
theorem allocBlueprints_countP (st : HeroStation) (alloc : StationAllocation)
    (i : ℤ) :
    (allocBlueprints st alloc i).countP (fun bp => bp.archetype == "Hybrid")
      = (getArchetypeCounts alloc).hybrids.toNat := by
  simp [allocBlueprints, List.countP_append, List.countP_map, Function.comp_def,
    List.countP_true, List.countP_false]

/-- Members of one allocation's piece carry its station, and only a
positive hybrid allocation produces Hybrid members. -/
theorem allocBlueprints_mem {st : HeroStation} {alloc : StationAllocation}
    {i : ℤ} {bp : NftBlueprint} (h : bp ∈ allocBlueprints st alloc i) :
    bp.station = st
    ∧ (bp.archetype = "Hybrid" → 0 < (getArchetypeCounts alloc).hybrids.toNat) := by
  rw [allocBlueprints] at h
  rcases List.mem_append.mp h with h' | h'
  · rcases List.mem_append.mp h' with h'' | h''
    · obtain ⟨k, hk, rfl⟩ := List.mem_map.mp h''
      exact ⟨rfl, fun _ => Nat.pos_of_ne_zero fun h0 => by
        rw [h0] at hk; simp at hk⟩
    · obtain ⟨k, hk, rfl⟩ := List.mem_map.mp h''
      exact ⟨rfl, fun hc => absurd hc (by simp)⟩
  · obtain ⟨k, hk, rfl⟩ := List.mem_map.mp h'
    exact ⟨rfl, fun hc => absurd hc (by simp)⟩

/-- Hybrid count of the whole expansion. -/
theorem expandAllocs_countP (stations : List HeroStation) :
    ∀ (dist : List StationAllocation) (nextId : ℤ) (l : List NftBlueprint),
      expandAllocs stations dist nextId = some l →
      l.countP (fun bp => bp.archetype == "Hybrid")
        = (dist.map fun a => (getArchetypeCounts a).hybrids.toNat).sum := by
  intro dist
  induction dist with
  | nil =>
    intro nextId l h
    cases h
    rfl
  | cons alloc rest ih =>
    intro nextId l h
    rw [expandAllocs] at h
    split at h
    · exact absurd h (by simp)
    next st hst =>
      rw [Option.map_eq_some'] at h
      obtain ⟨l', hrec, rfl⟩ := h
      rw [List.countP_append, allocBlueprints_countP, ih _ _ hrec,
        List.map_cons, List.sum_cons]

/-- Every member of the expansion belongs to some allocation's piece:
it carries that allocation's (found) station, and Hybrid members only
arise from allocations with a positive hybrid count. -/
theorem expandAllocs_mem (stations : List HeroStation) :
    ∀ (dist : List StationAllocation) (nextId : ℤ) (l : List NftBlueprint),
      expandAllocs stations dist nextId = some l →
      ∀ bp ∈ l, ∃ a ∈ dist, bp.station.id = a.stationId
        ∧ (bp.archetype = "Hybrid" → 0 < (getArchetypeCounts a).hybrids.toNat) := by
  intro dist
  induction dist with
  | nil =>
    intro nextId l h
    cases h
    intro bp hbp
    exact absurd hbp (by simp)
  | cons alloc rest ih =>
    intro nextId l h
    rw [expandAllocs] at h
    split at h
    · exact absurd h (by simp)
    next st hst =>
      rw [Option.map_eq_some'] at h
      obtain ⟨l', hrec, rfl⟩ := h
      intro bp hbp
      rcases List.mem_append.mp hbp with h' | h'
      · obtain ⟨hstation, hhyb⟩ := allocBlueprints_mem h'
        have hid : st.id = alloc.stationId := by
          have := List.find?_some hst
          simpa using this
        exact ⟨alloc, List.mem_cons_self _ _, by rw [hstation, hid], hhyb⟩
      · obtain ⟨a, ha, h₁, h₂⟩ := ih _ _ hrec bp h'
        exact ⟨a, List.mem_cons_of_mem _ ha, h₁, h₂⟩

-- ============================================================================
-- Concrete evaluation of the shipped distribution
-- ============================================================================

/-- Evaluated archetype counts of the 12 shipped allocations: stations
1–7 get 14 Bulls / 14 Bears, station 8 gets 13 / 15 plus 1 Hybrid
(round(28 × 0.48) = 13), stations 9–12 get 14 / 13
(round(27 × 0.5) = round(13.5) = 14, rounding half up). -/
theorem counts_eval :
    STATION_DISTRIBUTION.map getArchetypeCounts
      = [⟨14, 14, 0⟩, ⟨14, 14, 0⟩, ⟨14, 14, 0⟩, ⟨14, 14, 0⟩, ⟨14, 14, 0⟩,
         ⟨14, 14, 0⟩, ⟨14, 14, 0⟩, ⟨13, 15, 1⟩, ⟨14, 13, 0⟩, ⟨14, 13, 0⟩,
         ⟨14, 13, 0⟩, ⟨14, 13, 0⟩] := by
  simp only [STATION_DISTRIBUTION, List.map_cons, List.map_nil]
  norm_num [getArchetypeCounts, jsRound, jsFloor_eq_intFloor,
    ArchetypeCounts.mk.injEq]

/-- The piece lengths of the shipped distribution sum to 333. -/
theorem pieceLen_sum : (STATION_DISTRIBUTION.map pieceLen).sum = 333 := by
  have h : STATION_DISTRIBUTION.map pieceLen
      = (STATION_DISTRIBUTION.map getArchetypeCounts).map
          fun c => c.hybrids.toNat + c.bulls.toNat + c.bears.toNat := by
    rw [List.map_map]
    rfl
  rw [h, counts_eval]
  decide

/-- The shipped distribution allocates exactly one Hybrid in total. -/
theorem hybrid_sum :
    (STATION_DISTRIBUTION.map fun a => (getArchetypeCounts a).hybrids.toNat).sum
      = 1 := by
  have h : (STATION_DISTRIBUTION.map fun a => (getArchetypeCounts a).hybrids.toNat)
      = (STATION_DISTRIBUTION.map getArchetypeCounts).map fun c => c.hybrids.toNat := by
    rw [List.map_map]
    rfl
  rw [h, counts_eval]
  decide

/-- Only station 8's allocation has a positive hybrid count. -/
theorem hybrid_station_eight :
    ∀ a ∈ STATION_DISTRIBUTION,
      0 < (getArchetypeCounts a).hybrids.toNat → a.stationId = 8 := by
  decide

-- ============================================================================
-- C4: id permutation
-- ============================================================================

/-- C4.  Id permutation: for every distribution, every configuration
whose stations cover the distribution's station ids and every draw
stream, `buildNftBlueprints` succeeds and its blueprints' id sequence is
literally `1, 2, …, N` for `N` the number of blueprints (ids assigned by
1-based position after the shuffle) — in particular a gap- and
duplicate-free permutation of `{1, …, N}`; and over the shipped
`STATION_DISTRIBUTION` there are exactly `N = 333` blueprints, the sum
of the distribution's counts. -/
theorem c4_id_permutation (config : MetaGenConfig)
    (dist : List StationAllocation) (f : ℕ → ℚ) (c : ℕ)
    (hcov : ∀ a ∈ dist, ∃ s ∈ config.hero_journey.stations, s.id = a.stationId) :
    ∃ bps c', buildNftBlueprints config dist f c = some (bps, c')
      ∧ bps.map (·.id) = (List.range bps.length).map (fun k : ℕ => 1 + (k : ℤ))
      ∧ (dist = STATION_DISTRIBUTION → bps.length = 333) := by
  obtain ⟨l, hl⟩ := expandAllocs_exists config.hero_journey.stations dist 1 hcov
  refine ⟨reassignIds 1 (shuffleInPlace l f c).1, (shuffleInPlace l f c).2,
    ?_, ?_, ?_⟩
  · rw [buildNftBlueprints, hl]
  · rw [reassignIds_map_id, reassignIds_length]
  · intro hdist
    subst hdist
    rw [reassignIds_length, shuffleInPlace_length,
      expandAllocs_length _ _ _ _ hl, pieceLen_sum]

/-- Witness for C4: a configuration with stations 1–12 covers the
shipped distribution, so the theorem applies at the constant-zero
stream. -/
theorem c4_id_permutation_witness :
    ∃ bps c',
      buildNftBlueprints
        { scoring := { categories := [], tier_thresholds := [] },
          hero_journey :=
            { stations := (List.range 12).map fun k => { id := (k : ℤ) + 1, name := "S" } },
          layers := [] }
        STATION_DISTRIBUTION (fun _ => 0) 0 = some (bps, c')
      ∧ bps.map (·.id) = (List.range bps.length).map (fun k : ℕ => 1 + (k : ℤ))
      ∧ (STATION_DISTRIBUTION = STATION_DISTRIBUTION → bps.length = 333) :=
  c4_id_permutation _ STATION_DISTRIBUTION (fun _ => 0) 0 (by decide)

-- ============================================================================
-- C9: minority-category (Hybrid) exactness
-- ============================================================================

/-- Re-assignment keeps each member's station and archetype. -/
theorem reassignIds_mem : ∀ (n : ℤ) (l : List NftBlueprint) (bp : NftBlueprint),
    bp ∈ reassignIds n l →
    ∃ bp₀ ∈ l, bp.station = bp₀.station ∧ bp.archetype = bp₀.archetype
  | _, [], bp => fun h => absurd h (by simp [reassignIds])
  | n, b :: rest, bp => by
    intro h
    rw [reassignIds] at h
    rcases List.mem_cons.mp h with rfl | h'
    · exact ⟨b, List.mem_cons_self _ _, rfl, rfl⟩
    · obtain ⟨bp₀, h₀, h₁, h₂⟩ := reassignIds_mem (n + 1) rest bp h'
      exact ⟨bp₀, List.mem_cons_of_mem _ h₀, h₁, h₂⟩

/-- Counting by archetype only depends on the (station, archetype)
projection. -/
theorem countP_hybrid_eq_map (m : List NftBlueprint) :
    m.countP (fun bp => bp.archetype == "Hybrid")
      = (m.map fun bp => (bp.station, bp.archetype)).countP
          fun pr => pr.2 == "Hybrid" := by
  rw [List.countP_map]
  rfl

/-- C9.  Minority-category exactness: in the shipped distribution
exactly one allocation (station 8) declares a `hybridCount`, equal to 1;
and for every covering configuration and draw stream, the blueprints
built over that distribution contain exactly one Hybrid, whose station
id is 8 — the shuffle and id re-assignment preserve the multiset of
(station, archetype) pairs. -/
theorem c9_minority_exactness (config : MetaGenConfig) (f : ℕ → ℚ) (c : ℕ)
    (_hf : ∀ k, 0 ≤ f k ∧ f k < 1)
    (hcov : ∀ a ∈ STATION_DISTRIBUTION,
      ∃ s ∈ config.hero_journey.stations, s.id = a.stationId) :
    (STATION_DISTRIBUTION.countP (fun a => a.hybridCount.isSome) = 1
      ∧ ∀ a ∈ STATION_DISTRIBUTION, a.hybridCount.isSome →
          a.stationId = 8 ∧ a.hybridCount = some 1)
    ∧ ∃ bps c', buildNftBlueprints config STATION_DISTRIBUTION f c = some (bps, c')
        ∧ bps.countP (fun bp => bp.archetype == "Hybrid") = 1
        ∧ ∀ bp ∈ bps, bp.archetype = "Hybrid" → bp.station.id = 8 := by
  refine ⟨by decide, ?_⟩
  obtain ⟨l, hl⟩ :=
    expandAllocs_exists config.hero_journey.stations STATION_DISTRIBUTION 1 hcov
  refine ⟨reassignIds 1 (shuffleInPlace l f c).1, (shuffleInPlace l f c).2,
    ?_, ?_, ?_⟩
  · rw [buildNftBlueprints, hl]
  · rw [countP_hybrid_eq_map, reassignIds_map_pair]
    have hperm := (shuffleInPlace_perm l f c).map
      fun bp => (bp.station, bp.archetype)
    rw [hperm.countP_eq, ← countP_hybrid_eq_map,
      expandAllocs_countP _ _ _ _ hl, hybrid_sum]
  · intro bp hbp hhyb
    obtain ⟨bp₀, h₀, hstation, harch⟩ := reassignIds_mem 1 _ bp hbp
    have h₀' : bp₀ ∈ l := (shuffleInPlace_perm l f c).mem_iff.mp h₀
    obtain ⟨a, ha, hid, hpos⟩ := expandAllocs_mem _ _ _ _ hl bp₀ h₀'
    have : a.stationId = 8 :=
      hybrid_station_eight a ha (hpos (harch ▸ hhyb))
    rw [hstation, hid, this]

/-- Witness for C9 over a 12-station configuration and the
constant-zero stream. -/
theorem c9_minority_exactness_witness :
    ∃ bps c',
      buildNftBlueprints
        { scoring := { categories := [], tier_thresholds := [] },
          hero_journey :=
            { stations := (List.range 12).map fun k => { id := (k : ℤ) + 1, name := "S" } },
          layers := [] }
        STATION_DISTRIBUTION (fun _ => 0) 0 = some (bps, c')
      ∧ bps.countP (fun bp => bp.archetype == "Hybrid") = 1
      ∧ ∀ bp ∈ bps, bp.archetype = "Hybrid" → bp.station.id = 8 :=
  (c9_minority_exactness _ (fun _ => 0) 0 (fun _ => by norm_num) (by decide)).2

-- ============================================================================
-- C1: pipeline determinism modulo timestamp
-- ============================================================================

/-- Forgets the only timestamp-dependent field of a generated record. -/
def eraseTimestamp (nft : GeneratedNft) : GeneratedNft :=
  { nft with mintTimestamp := 0 }

/-- The timestamp only enters a generated record's `mintTimestamp`
field: generating at time `t` equals generating at time 0 and patching
the field. -/
theorem buildGeneratedNft_timestamp (bp : NftBlueprint) (config : MetaGenConfig)
    (f : ℕ → ℚ) (c : ℕ) (t : ℤ) :
    buildGeneratedNft bp config f c t
      = Option.map (fun p => ({ p.1 with mintTimestamp := t }, p.2))
          (buildGeneratedNft bp config f c 0) := by
  unfold buildGeneratedNft
  cases h1 : generateTraitsForNft config f c with
  | none => rfl
  | some p =>
    obtain ⟨traits, c1⟩ := p
    dsimp only
    cases h2 : resolveTier (computeTotalScore traits)
        config.scoring.tier_thresholds with
    | none => rfl
    | some tier =>
      dsimp only
      cases h3 : generateTag f c1 with
      | none => rfl
      | some q => rfl

/-- The timestamp only enters the `mintTimestamp` fields across a whole
run of record generation. -/
theorem generateAllNfts_timestamp (config : MetaGenConfig) (f : ℕ → ℚ) (t : ℤ) :
    ∀ (bps : List NftBlueprint) (c : ℕ),
      generateAllNfts config f t bps c
        = Option.map
            (fun p => (p.1.map fun nft => { nft with mintTimestamp := t }, p.2))
            (generateAllNfts config f 0 bps c)
  | [], _ => rfl
  | bp :: rest, c => by
    unfold generateAllNfts
    rw [buildGeneratedNft_timestamp]
    cases h1 : buildGeneratedNft bp config f c 0 with
    | none => rfl
    | some q =>
      obtain ⟨nft, c1⟩ := q
      simp only [Option.map_some']
      rw [generateAllNfts_timestamp config f t rest c1]
      cases generateAllNfts config f 0 rest c1 with
      | none => rfl
      | some p => rfl

/-- Patching a timestamp then erasing it is just erasing it. -/
theorem eraseTimestamp_patch (t : ℤ) (nft : GeneratedNft) :
    eraseTimestamp { nft with mintTimestamp := t } = eraseTimestamp nft := rfl

/-- C1.  Determinism of the full pipeline: two runs from the same seed
(each with a fresh RNG derived from that seed) agree on every blueprint
and on every field of every generated record except `mintTimestamp`,
whatever the two runs' timestamps are. -/
theorem c1_pipeline_determinism (config : MetaGenConfig) (seed : String)
    (t1 t2 : ℤ) :
    Option.map (fun r => (r.1, r.2.map eraseTimestamp))
        (generateCollectionCore config seed t1)
      = Option.map (fun r => (r.1, r.2.map eraseTimestamp))
          (generateCollectionCore config seed t2) := by
  have key : ∀ t : ℤ,
      Option.map (fun r => (r.1, r.2.map eraseTimestamp))
        (generateCollectionCore config seed t)
      = Option.map (fun r => (r.1, r.2.map eraseTimestamp))
          (generateCollectionCore config seed 0) := by
    intro t
    unfold generateCollectionCore
    split_ifs with hval
    · rfl
    · dsimp only
      cases hb : buildNftBlueprints config STATION_DISTRIBUTION
          (createRngStream seed) 0 with
      | none => rfl
      | some pr =>
        obtain ⟨blueprints, c⟩ := pr
        dsimp only
        split_ifs with hlen
        · rfl
        · rw [generateAllNfts_timestamp]
          cases generateAllNfts config (createRngStream seed) 0 blueprints c with
          | none => rfl
          | some p =>
            simp only [Option.map_some', List.map_map]
            rfl
  rw [key t1, key t2]

/-- The shipped distribution passes its own validation with total 333
(so the validation gate of the pipeline is open). -/
theorem validateStationDistribution_eval :
    validateStationDistribution = (true, 333) := by
  rw [validateStationDistribution]
  norm_num [STATION_DISTRIBUTION, abs_le]
